import Mathlib

/-!
Shallow embedding of the indexed binary dataset store of `voice100/data.py`:
the writer `IndexDataFileWriter`, the eager reader `IndexDataFileReaderV1`,
the memory-mapped reader `IndexDataFileReader`, and the composite view
`IndexDataDataset`.  Files are modelled as lists of bytes (`List Nat`,
each < 256 in well-formed states); numpy `int64` values are 8 little-endian
bytes (the native byte order of the platforms the code targets).
-/

namespace Voice100

/-! ### Byte-level encoding of `int64` values

`IndexDataFileWriter.write` stores the running total with
`bytes(memoryview(np.array(self.current, dtype=np.int64)))`, i.e. the 8
little-endian bytes of the value; `np.fromfile(..., dtype=np.int64)` reads
them back, interpreting as signed two's complement. -/

/-- The `k` little-endian base-256 digits of `u` (truncating to `u % 256^k`). -/
def toLEBytes : Nat → Nat → List Nat
  | 0, _ => []
  | k + 1, u => u % 256 :: toLEBytes k (u / 256)

/-- The 8 bytes written for one index entry (`np.int64`, little-endian). -/
def int64LE (u : Nat) : List Nat := toLEBytes 8 u

/-- Recompose a little-endian byte list into a natural number. -/
def fromLEBytes : List Nat → Nat
  | [] => 0
  | b :: bs => b + 256 * fromLEBytes bs

/-- Interpret 8 little-endian bytes as a signed two's-complement `int64`. -/
def decodeInt64LE (bs : List Nat) : Int :=
  let u := fromLEBytes bs
  if u < 2 ^ 63 then (u : Int) else (u : Int) - 2 ^ 64

/-- Fuel-driven worker for `chunkExact`: peels `n` elements at a time; the
fuel only bounds the recursion depth and is chosen large enough that it
never runs out. -/
def chunkGo (n : Nat) : Nat → List Nat → List (List Nat)
  | _, [] => []
  | 0, _ :: _ => []
  | fuel + 1, a :: rest =>
    if n = 0 then []
    else (a :: rest).take n :: chunkGo n fuel ((a :: rest).drop n)

/-- Split a list into consecutive chunks of `n` elements; the final chunk is
shorter when `n` does not divide the length.  (Used to model how
`np.fromfile` consumes a file as a sequence of fixed-width items.) -/
def chunkExact (n : Nat) (l : List Nat) : List (List Nat) :=
  chunkGo n l.length l

/-- `np.fromfile(f, dtype=np.int64)`: consume the file as 8-byte items,
ignoring a trailing incomplete item. -/
def npFromfileInt64 (bs : List Nat) : List Int :=
  ((chunkExact 8 bs).filter fun c => c.length = 8).map decodeInt64LE

/-! ### `IndexDataFileWriter`

```python
def write(self, data):
    self.current += len(data)
    self.idx_f.write(bytes(memoryview(np.array(self.current, dtype=np.int64))))
    self.bin_f.write(data)
```
The session state is the running total plus the bytes written so far to the
`.idx` and `.bin` files (both opened empty with mode `'wb'`). -/

structure IndexDataFileWriter where
  current : Nat
  idxBytes : List Nat
  binBytes : List Nat
  deriving Repr, DecidableEq

/-- `IndexDataFileWriter.write`: add the record length to the running total,
append the total to the index file as an `int64`, append the payload to the
data file. -/
def IndexDataFileWriter.write (w : IndexDataFileWriter) (data : List Nat) :
    IndexDataFileWriter :=
  { current := w.current + data.length
    idxBytes := w.idxBytes ++ int64LE (w.current + data.length)
    binBytes := w.binBytes ++ data }

/-- The writer state on entering the session: running total 0, both files
created empty. -/
def writerInit : IndexDataFileWriter := ⟨0, [], []⟩

/-- Write a sequence of records through one session. -/
def writeAll (w : IndexDataFileWriter) (records : List (List Nat)) :
    IndexDataFileWriter :=
  records.foldl IndexDataFileWriter.write w

/-- The pair (`.idx` file content, `.bin` file content) produced by a writer
session that writes `records` in order. -/
def writeSession (records : List (List Nat)) : List Nat × List Nat :=
  let w := writeAll writerInit records
  (w.idxBytes, w.binBytes)

/-! ### Python/numpy indexing and slicing primitives -/

/-- Indexing a 1-d numpy array by a Python integer: negative indices wrap
around once (`a[-1]` is the last element); anything outside `[-len, len)`
raises `IndexError` (modelled as `none`). -/
def npIndex (l : List Int) (i : Int) : Option Int :=
  if 0 ≤ i ∧ i < (l.length : Int) then l[i.toNat]?
  else if -(l.length : Int) ≤ i ∧ i < 0 then l[((l.length : Int) + i).toNat]?
  else none

/-- Resolve one endpoint of a Python slice `l[a:b]`: negative values count
from the end, and the result is clamped into `[0, len]`. -/
def pySliceBound (len : Nat) (i : Int) : Nat :=
  if i < 0 then (max ((len : Int) + i) 0).toNat else min i.toNat len

/-- Python slice `l[a:b]` on a byte sequence (numpy `uint8` array, `mmap` or
`bytes`): never raises, clamps both endpoints, empty when `b ≤ a`. -/
def pySlice (l : List Nat) (a b : Int) : List Nat :=
  (l.take (pySliceBound l.length b)).drop (pySliceBound l.length a)

/-! ### `IndexDataFileReaderV1` (eager-load variant)

```python
def __init__(self, file):
    self.indices = np.fromfile(file + '.idx', dtype=np.int64)
    self.data = np.fromfile(file + '.bin', dtype=np.uint8)
def __len__(self):
    return len(self.indices)
def __getitem__(self, index):
    start = self.indices[index - 1] if index > 0 else 0
    end = self.indices[index]
    return self.data[start:end]
```
-/

structure IndexDataFileReaderV1 where
  indices : List Int
  data : List Nat
  deriving Repr, DecidableEq

/-- `IndexDataFileReaderV1.__init__` on the contents of the two files
(`np.fromfile` with `dtype=np.uint8` yields the raw bytes). -/
def IndexDataFileReaderV1.openFiles (idxFile binFile : List Nat) :
    IndexDataFileReaderV1 :=
  ⟨npFromfileInt64 idxFile, binFile⟩

/-- `IndexDataFileReaderV1.__len__`. -/
def IndexDataFileReaderV1.len (r : IndexDataFileReaderV1) : Nat :=
  r.indices.length

/-- `IndexDataFileReaderV1.__getitem__`: `start` is `indices[index-1]` for
`index > 0` and `0` otherwise, `end` is `indices[index]`; a failing numpy
lookup (`IndexError`) is `none`. -/
def IndexDataFileReaderV1.getitem (r : IndexDataFileReaderV1) (index : Int) :
    Option (List Nat) :=
  match (if index > 0 then npIndex r.indices (index - 1) else some 0) with
  | none => none
  | some s =>
    match npIndex r.indices index with
    | none => none
    | some e => some (pySlice r.data s e)

/-! ### `IndexDataFileReader` (memory-mapped variant)

```python
def __init__(self, file):
    self.indices = np.fromfile(file + '.idx', dtype=np.int64)
    self.file_obj = open(file + '.bin', mode="rb")
    self.data = mmap.mmap(self.file_obj.fileno(), length=0, access=mmap.ACCESS_READ)
def __getitem__(self, index): ...  # same body as V1
def close(self):
    self.data.close()
    self.file_obj.close()
```
The two boolean flags record whether `self.data` (the mapping) and
`self.file_obj` (the handle) have been closed. -/

structure IndexDataFileReader where
  indices : List Int
  data : List Nat
  dataClosed : Bool
  fileClosed : Bool
  deriving Repr, DecidableEq

/-- `IndexDataFileReader.__init__` on the contents of the two files: the
mapping exposes the bytes of the `.bin` file; nothing is closed yet. -/
def IndexDataFileReader.openFiles (idxFile binFile : List Nat) :
    IndexDataFileReader :=
  ⟨npFromfileInt64 idxFile, binFile, false, false⟩

/-- `IndexDataFileReader.__len__`. -/
def IndexDataFileReader.len (r : IndexDataFileReader) : Nat :=
  r.indices.length

/-- `IndexDataFileReader.__getitem__`: same index arithmetic as the eager
variant; slicing a closed `mmap` raises (`none`). -/
def IndexDataFileReader.getitem (r : IndexDataFileReader) (index : Int) :
    Option (List Nat) :=
  if r.dataClosed then none
  else
    match (if index > 0 then npIndex r.indices (index - 1) else some 0) with
    | none => none
    | some s =>
      match npIndex r.indices index with
      | none => none
      | some e => some (pySlice r.data s e)

/-- `IndexDataFileReader.close`: closes the mapping and the file handle. -/
def IndexDataFileReader.close (r : IndexDataFileReader) : IndexDataFileReader :=
  { r with dataClosed := true, fileClosed := true }

/-! ### Reader objects

`IndexDataDataset` stores a heterogeneous list of readers: entries passed in
directly may be of either class.  Method dispatch is Python attribute
lookup; `IndexDataFileReaderV1` defines no `close` method, so calling
`close()` on it raises `AttributeError` (modelled as `none`). -/

inductive ReaderObj where
  | v1 (r : IndexDataFileReaderV1)
  | mapped (r : IndexDataFileReader)
  deriving Repr, DecidableEq

instance : Inhabited ReaderObj := ⟨.v1 ⟨[], []⟩⟩

/-- `len(reader)`. -/
def ReaderObj.len : ReaderObj → Nat
  | .v1 r => r.len
  | .mapped r => r.len

/-- `reader[index]`. -/
def ReaderObj.getitem : ReaderObj → Int → Option (List Nat)
  | .v1 r, i => r.getitem i
  | .mapped r, i => r.getitem i

/-- `reader.close()`: attribute lookup fails on the eager variant
(`AttributeError`, modelled `none`); on the mapped variant it closes the
mapping and the handle and returns the updated reader. -/
def ReaderObj.close : ReaderObj → Option ReaderObj
  | .v1 _ => none
  | .mapped r => some (.mapped r.close)

/-! ### numpy decoding: `np.frombuffer(..., dtype=dtype).reshape(shape)`

A dtype is modelled by its element size in bytes; a decoded array by its
resolved shape together with the flat list of elements, each element being
its `itemsize` underlying bytes. -/

/-- Product of the non-negative entries of a requested shape (the dimensions
other than the inferred `-1`). -/
def knownProd (shape : List Int) : Nat :=
  ((shape.filter fun d => d ≠ -1).map Int.toNat).prod

/-- `np.reshape` shape resolution for an array of `count` elements: all
entries must be ≥ -1 with at most one `-1`; without `-1` the product must
equal `count`; with one `-1` the inferred dimension is `count / p` for
`p` the product of the other entries, requiring `p ≠ 0` and `p ∣ count`. -/
def resolveShape (shape : List Int) (count : Nat) : Option (List Nat) :=
  if shape.any fun d => d < -1 then none
  else if shape.count (-1) = 0 then
    if knownProd shape = count then some (shape.map Int.toNat) else none
  else if shape.count (-1) = 1 then
    if knownProd shape ≠ 0 ∧ count % knownProd shape = 0 then
      some (shape.map fun d => if d = -1 then count / knownProd shape else d.toNat)
    else none
  else none

/-- `np.frombuffer(buf, dtype).reshape(shape)`: fails when the buffer length
is not a multiple of the element size, or when the shape cannot be resolved
for the resulting element count. -/
def npFrombufferReshape (buf : List Nat) (itemsize : Nat) (shape : List Int) :
    Option (List Nat × List (List Nat)) :=
  if itemsize = 0 then none
  else if buf.length % itemsize ≠ 0 then none
  else
    match resolveShape shape (buf.length / itemsize) with
    | none => none
    | some sh => some (sh, chunkExact itemsize buf)

/-! ### `IndexDataDataset`

```python
def __init__(self, readers_or_files, shapes, dtypes, dups=None):
    self.readers = [IndexDataDataset._getreader(x) for x in readers_or_files]
    self.shapes = shapes
    self.dtypes = dtypes
    if dups: self.dups = dups
    else: self.dups = [1] * len(readers_or_files)
def __len__(self):
    return len(self.readers[0])
def __getitem__(self, index):
    return [np.frombuffer(reader[index // dup], dtype=dtype).reshape(shape)
            for reader, shape, dtype, dup in zip(self.readers, self.shapes, self.dtypes, self.dups)]
def close(self):
    for reader in self.readers:
        reader.close()
```
-/

structure IndexDataDataset where
  readers : List ReaderObj
  shapes : List (List Int)
  dtypes : List Nat
  dups : List Int

/-- `IndexDataDataset._getreader`: a string entry is opened as a
memory-mapped `IndexDataFileReader` over `<entry>.idx` / `<entry>.bin`
(the file system is modelled as a map from names to contents); any other
entry is returned as is.  -/
def getreader (fs : String → List Nat) : Sum String ReaderObj → ReaderObj
  | .inl file => .mapped (IndexDataFileReader.openFiles
      (fs (file ++ ".idx")) (fs (file ++ ".bin")))
  | .inr r => r

/-- `IndexDataDataset.__init__`: `dups` is `None` or a list; `if dups:` is
Python truthiness, so `None` and the empty list both fall to the
`[1] * len(readers_or_files)` default. -/
def IndexDataDataset.init (fs : String → List Nat)
    (readersOrFiles : List (Sum String ReaderObj)) (shapes : List (List Int))
    (dtypes : List Nat) (dups : Option (List Int)) : IndexDataDataset :=
  { readers := readersOrFiles.map (getreader fs)
    shapes := shapes
    dtypes := dtypes
    dups :=
      match dups with
      | some l => if l.isEmpty then List.replicate readersOrFiles.length 1 else l
      | none => List.replicate readersOrFiles.length 1 }

/-- `IndexDataDataset.__len__`: `len(self.readers[0])`; raises `IndexError`
(`none`) when there are no readers. -/
def IndexDataDataset.length (ds : IndexDataDataset) : Option Nat :=
  match ds.readers with
  | [] => none
  | r :: _ => some r.len

/-- One element of the `__getitem__` comprehension:
`np.frombuffer(reader[index // dup], dtype=dtype).reshape(shape)`.
Python `//` is floor division and raises on `dup == 0`. -/
def streamItem (k : Int) (r : ReaderObj) (shape : List Int) (itemsize : Nat)
    (dup : Int) : Option (List Nat × List (List Nat)) :=
  if dup = 0 then none
  else (r.getitem (Int.fdiv k dup)).bind fun buf =>
    npFrombufferReshape buf itemsize shape

/-- The `__getitem__` comprehension over `zip(readers, shapes, dtypes, dups)`:
`zip` stops at the shortest list, evaluation is left to right, and the first
exception aborts the whole call. -/
def getitemZip (k : Int) : List ReaderObj → List (List Int) → List Nat →
    List Int → Option (List (List Nat × List (List Nat)))
  | r :: rs, sh :: shs, dt :: dts, dp :: dps =>
    match streamItem k r sh dt dp with
    | none => none
    | some a =>
      match getitemZip k rs shs dts dps with
      | none => none
      | some rest => some (a :: rest)
  | _, _, _, _ => some []

/-- `IndexDataDataset.__getitem__`. -/
def IndexDataDataset.getitem (ds : IndexDataDataset) (k : Int) :
    Option (List (List Nat × List (List Nat))) :=
  getitemZip k ds.readers ds.shapes ds.dtypes ds.dups

/-- The `for reader in self.readers: reader.close()` loop: returns the
reader states after the loop and whether it ran to completion.  An
exception from one `close()` propagates at once, leaving the remaining
readers untouched. -/
def closeLoop : List ReaderObj → List ReaderObj × Bool
  | [] => ([], true)
  | r :: rs =>
    match r.close with
    | none => (r :: rs, false)
    | some r2 =>
      let p := closeLoop rs
      (r2 :: p.1, p.2)

/-- `IndexDataDataset.close`. -/
def IndexDataDataset.close (ds : IndexDataDataset) : List ReaderObj × Bool :=
  closeLoop ds.readers

/-! ### Reference quantities from the specification

`cumulativeOffsets a records` is the list of end-exclusive cumulative byte
offsets `a + L_0 + … + L_i` the spec prescribes for the index file, and
`sumLens` the total payload length. -/

def sumLens (records : List (List Nat)) : Nat :=
  (records.map List.length).sum

def cumulativeOffsets (a : Nat) : List (List Nat) → List Nat
  | [] => []
  | r :: rs => (a + r.length) :: cumulativeOffsets (a + r.length) rs

/-- A requested reshape target as numpy accepts it: every entry at least
`-1`, and at most one `-1` (one inferred dimension). -/
def shapeWellFormed (shape : List Int) : Prop :=
  (∀ d ∈ shape, -1 ≤ d) ∧ shape.count (-1) ≤ 1

/-- The specification's notion of a byte count being "consistent with
`shapes[s]`" for an array of `count` elements: without an inferred
dimension the declared product must equal `count`; with one `-1` the
product of the declared dimensions must be nonzero and divide `count`. -/
def reshapeCompatible (shape : List Int) (count : Nat) : Prop :=
  if shape.count (-1) = 1 then
    knownProd shape ≠ 0 ∧ count % knownProd shape = 0
  else knownProd shape = count

instance (shape : List Int) : Decidable (shapeWellFormed shape) := by
  unfold shapeWellFormed; infer_instance

instance (shape : List Int) (count : Nat) :
    Decidable (reshapeCompatible shape count) := by
  unfold reshapeCompatible; infer_instance

/-! ## Lemmas: byte encoding -/

theorem toLEBytes_length (k u : Nat) : (toLEBytes k u).length = k := by
  induction k generalizing u with
  | zero => rfl
  | succ k ih => simp [toLEBytes, ih]

theorem int64LE_length (u : Nat) : (int64LE u).length = 8 :=
  toLEBytes_length 8 u

theorem fromLEBytes_toLEBytes (k u : Nat) :
    fromLEBytes (toLEBytes k u) = u % 256 ^ k := by
  induction k generalizing u with
  | zero => simp [toLEBytes, fromLEBytes, Nat.mod_one]
  | succ k ih =>
    rw [toLEBytes, fromLEBytes, ih, pow_succ']
    exact Nat.mod_mul.symm

theorem decodeInt64LE_int64LE (u : Nat) (h : u < 2 ^ 63) :
    decodeInt64LE (int64LE u) = (u : Int) := by
  have h8 : u % 256 ^ 8 = u := Nat.mod_eq_of_lt (by norm_num; omega)
  simp only [decodeInt64LE, int64LE, fromLEBytes_toLEBytes, h8, if_pos h]

theorem chunkGo_flatten (n : Nat) (hn : 0 < n) (bs : List (List Nat))
    (hb : ∀ b ∈ bs, b.length = n) (fuel : Nat)
    (hf : bs.flatten.length ≤ fuel) : chunkGo n fuel bs.flatten = bs := by
  induction bs generalizing fuel with
  | nil => cases fuel <;> rfl
  | cons b rest ih =>
    have hbn : b.length = n := hb b (by simp)
    obtain ⟨x, b', rfl⟩ : ∃ x b', b = x :: b' := by
      cases b with
      | nil => simp at hbn; omega
      | cons x b' => exact ⟨x, b', rfl⟩
    have hflen : ((x :: b') :: rest).flatten.length =
        n + rest.flatten.length := by
      simp [← hbn]
      omega
    cases fuel with
    | zero => omega
    | succ f =>
      rw [List.flatten_cons, List.cons_append, chunkGo]
      rw [if_neg (by omega)]
      simp only [← List.cons_append]
      rw [List.take_left' hbn, List.drop_left' hbn]
      refine congrArg _ (ih (fun c hc => hb c (by simp [hc])) f ?_)
      omega

theorem chunkExact_flatten (n : Nat) (hn : 0 < n) (bs : List (List Nat))
    (hb : ∀ b ∈ bs, b.length = n) : chunkExact n bs.flatten = bs :=
  chunkGo_flatten n hn bs hb bs.flatten.length le_rfl

theorem npFromfileInt64_blocks (cs : List Nat) :
    npFromfileInt64 ((cs.map int64LE).flatten) =
      cs.map fun u => decodeInt64LE (int64LE u) := by
  unfold npFromfileInt64
  rw [chunkExact_flatten 8 (by omega) _ (by
    intro b hb
    obtain ⟨u, _, rfl⟩ := List.mem_map.mp hb
    exact int64LE_length u)]
  rw [List.filter_eq_self.mpr (by
    intro b hb
    obtain ⟨u, _, rfl⟩ := List.mem_map.mp hb
    simp [int64LE_length u])]
  rw [List.map_map]
  simp only [Function.comp_def]

/-! ## Lemmas: writer session -/

theorem writeAll_spec (rs : List (List Nat)) (a : Nat) (ib bb : List Nat) :
    writeAll ⟨a, ib, bb⟩ rs =
      ⟨a + sumLens rs, ib ++ ((cumulativeOffsets a rs).map int64LE).flatten,
        bb ++ rs.flatten⟩ := by
  induction rs generalizing a ib bb with
  | nil => simp [writeAll, sumLens, cumulativeOffsets]
  | cons r rest ih =>
    show writeAll (IndexDataFileWriter.write ⟨a, ib, bb⟩ r) rest = _
    rw [IndexDataFileWriter.write, ih]
    simp only [sumLens, cumulativeOffsets, List.map_cons, List.sum_cons,
      List.flatten_cons, IndexDataFileWriter.mk.injEq, List.append_assoc,
      Nat.add_assoc]

theorem writeSession_idx (rs : List (List Nat)) :
    (writeSession rs).1 = ((cumulativeOffsets 0 rs).map int64LE).flatten := by
  show (writeAll ⟨0, [], []⟩ rs).idxBytes = _
  rw [writeAll_spec]
  simp

theorem writeSession_bin (rs : List (List Nat)) :
    (writeSession rs).2 = rs.flatten := by
  show (writeAll ⟨0, [], []⟩ rs).binBytes = _
  rw [writeAll_spec]
  simp

/-! ## Lemmas: cumulative offsets -/

theorem sumLens_cons (r : List Nat) (rs : List (List Nat)) :
    sumLens (r :: rs) = r.length + sumLens rs := by
  simp [sumLens]

theorem sumLens_append (xs ys : List (List Nat)) :
    sumLens (xs ++ ys) = sumLens xs + sumLens ys := by
  simp [sumLens]

theorem flatten_length_sumLens (rs : List (List Nat)) :
    rs.flatten.length = sumLens rs := by
  simp [sumLens]

theorem sumLens_take_le (rs : List (List Nat)) (i : Nat) :
    sumLens (rs.take i) ≤ sumLens rs := by
  conv_rhs => rw [← List.take_append_drop i rs]
  rw [sumLens_append]
  omega

theorem sumLens_take_succ (rs : List (List Nat)) (i : Nat) (r : List Nat)
    (h : rs[i]? = some r) :
    sumLens (rs.take (i + 1)) = sumLens (rs.take i) + r.length := by
  rw [List.take_succ, sumLens_append, h]
  simp [sumLens]

theorem cumulativeOffsets_length (a : Nat) (rs : List (List Nat)) :
    (cumulativeOffsets a rs).length = rs.length := by
  induction rs generalizing a with
  | nil => rfl
  | cons r rest ih => simp [cumulativeOffsets, ih]

theorem cumulativeOffsets_getElem? (a : Nat) (rs : List (List Nat)) (i : Nat)
    (h : i < rs.length) :
    (cumulativeOffsets a rs)[i]? = some (a + sumLens (rs.take (i + 1))) := by
  induction rs generalizing a i with
  | nil => simp at h
  | cons r rest ih =>
    cases i with
    | zero => simp [cumulativeOffsets, sumLens]
    | succ i =>
      rw [cumulativeOffsets, List.getElem?_cons_succ,
        ih (a + r.length) i (by simpa using h), List.take_succ_cons,
        sumLens_cons]
      exact congrArg some (by omega)

theorem cumulativeOffsets_mem_le (a : Nat) (rs : List (List Nat)) :
    ∀ v ∈ cumulativeOffsets a rs, v ≤ a + sumLens rs := by
  induction rs generalizing a with
  | nil => simp [cumulativeOffsets]
  | cons r rest ih =>
    intro v hv
    rw [cumulativeOffsets] at hv
    rw [sumLens_cons]
    rcases List.mem_cons.mp hv with h | h
    · omega
    · have := ih (a + r.length) v h
      omega

theorem cumulativeOffsets_head_ge (a : Nat) (rs : List (List Nat)) :
    ∀ v ∈ (cumulativeOffsets a rs).head?, a ≤ v := by
  cases rs with
  | nil => simp [cumulativeOffsets]
  | cons r rest => simp [cumulativeOffsets]

theorem cumulativeOffsets_chain (a : Nat) (rs : List (List Nat)) :
    List.Chain' (· ≤ ·) (cumulativeOffsets a rs) := by
  induction rs generalizing a with
  | nil => simp [cumulativeOffsets]
  | cons r rest ih =>
    rw [cumulativeOffsets]
    refine List.chain'_cons'.mpr ⟨?_, ih (a + r.length)⟩
    intro y hy
    exact cumulativeOffsets_head_ge (a + r.length) rest y hy

/-! ## Lemmas: parsed index file -/

theorem parsedIndices (rs : List (List Nat)) (h : sumLens rs < 2 ^ 63) :
    npFromfileInt64 (writeSession rs).1 =
      (cumulativeOffsets 0 rs).map (Nat.cast : Nat → Int) := by
  rw [writeSession_idx, npFromfileInt64_blocks]
  apply List.map_congr_left
  intro v hv
  refine decodeInt64LE_int64LE v (lt_of_le_of_lt ?_ h)
  simpa using cumulativeOffsets_mem_le 0 rs v hv

theorem sum_map_const_eight (l : List Nat) :
    (l.map fun _ => (8 : Nat)).sum = 8 * l.length := by
  induction l with
  | nil => rfl
  | cons v rest ih => simp [ih]; ring

theorem writeSession_idx_length (rs : List (List Nat)) :
    (writeSession rs).1.length = 8 * rs.length := by
  rw [writeSession_idx, List.length_flatten, List.map_map]
  have hmap : (List.map (List.length ∘ int64LE) (cumulativeOffsets 0 rs)) =
      List.map (fun _ => 8) (cumulativeOffsets 0 rs) :=
    List.map_congr_left fun v _ => int64LE_length v
  rw [hmap, sum_map_const_eight, cumulativeOffsets_length]

/-! ## Lemmas: numpy indexing and Python slicing -/

theorem npIndex_natCast (l : List Int) (i : Nat) (h : i < l.length) :
    npIndex l (i : Int) = l[i]? := by
  unfold npIndex
  rw [if_pos ⟨Int.natCast_nonneg i, by exact_mod_cast h⟩]
  simp

theorem npIndex_eq_none_iff (l : List Int) (i : Int) :
    npIndex l i = none ↔ i < -(l.length : Int) ∨ (l.length : Int) ≤ i := by
  unfold npIndex
  split_ifs with h1 h2
  · have hlt : i.toNat < l.length := by omega
    rw [List.getElem?_eq_getElem hlt]
    simp only [reduceCtorEq, false_iff]
    omega
  · have hlt : ((l.length : Int) + i).toNat < l.length := by omega
    rw [List.getElem?_eq_getElem hlt]
    simp only [reduceCtorEq, false_iff]
    omega
  · simp only [true_iff]
    omega

theorem npIndex_isSome_iff (l : List Int) (i : Int) :
    (npIndex l i).isSome ↔ -(l.length : Int) ≤ i ∧ i < (l.length : Int) := by
  rw [Option.isSome_iff_ne_none, ne_eq, npIndex_eq_none_iff]
  omega

theorem npIndex_neg (l : List Int) (i : Int) (h1 : -(l.length : Int) ≤ i)
    (h2 : i < 0) : npIndex l i = l[((l.length : Int) + i).toNat]? := by
  unfold npIndex
  rw [if_neg (by omega), if_pos ⟨h1, h2⟩]

theorem pySliceBound_natCast (len s : Nat) :
    pySliceBound len (s : Int) = min s len := by
  unfold pySliceBound
  rw [if_neg (by omega)]
  simp

theorem pySlice_natCast (l : List Nat) (s e : Nat) (hs : s ≤ l.length)
    (he : e ≤ l.length) :
    pySlice l (s : Int) (e : Int) = (l.take e).drop s := by
  unfold pySlice
  rw [pySliceBound_natCast, pySliceBound_natCast, Nat.min_eq_left hs,
    Nat.min_eq_left he]

/-! ## Lemmas: the record round-trip -/

theorem flatten_drop_sumLens (rs : List (List Nat)) (i : Nat) :
    rs.flatten.drop (sumLens (rs.take i)) = (rs.drop i).flatten := by
  induction i generalizing rs with
  | zero => simp [sumLens]
  | succ i ih =>
    cases rs with
    | nil => simp [sumLens]
    | cons r rest =>
      rw [List.take_succ_cons, sumLens_cons, List.flatten_cons,
        List.drop_append, List.drop_succ_cons]
      exact ih rest

theorem flatten_slice_record (rs : List (List Nat)) (i : Nat) (r : List Nat)
    (h : rs[i]? = some r) :
    (rs.flatten.take (sumLens (rs.take (i + 1)))).drop (sumLens (rs.take i)) =
      r := by
  have hlen : i < rs.length := by
    by_contra hc
    rw [List.getElem?_eq_none (by omega)] at h
    exact Option.noConfusion h
  have hr : rs[i] = r := by
    rw [List.getElem?_eq_getElem hlen] at h
    exact Option.some.inj h
  rw [List.drop_take, flatten_drop_sumLens, sumLens_take_succ rs i r h,
    Nat.add_sub_cancel_left, List.drop_eq_getElem_cons hlen,
    List.flatten_cons, hr]
  exact List.take_left r _

/-! ## Lemmas: reader `__getitem__` -/

theorem v1_getitem_eq (rd : IndexDataFileReaderV1) (j : Int) :
    rd.getitem j =
      (if j > 0 then npIndex rd.indices (j - 1) else some 0).bind fun s =>
        (npIndex rd.indices j).map fun e => pySlice rd.data s e := by
  unfold IndexDataFileReaderV1.getitem
  cases h1 : (if j > 0 then npIndex rd.indices (j - 1) else some 0) with
  | none => rfl
  | some s =>
    cases h2 : npIndex rd.indices j with
    | none => rfl
    | some e => rfl

theorem mapped_getitem_eq (rd : IndexDataFileReader) (j : Int)
    (hopen : rd.dataClosed = false) :
    rd.getitem j =
      IndexDataFileReaderV1.getitem ⟨rd.indices, rd.data⟩ j := by
  unfold IndexDataFileReader.getitem IndexDataFileReaderV1.getitem
  rw [hopen]
  rfl

theorem v1_getitem_eq_none_iff (rd : IndexDataFileReaderV1) (j : Int) :
    rd.getitem j = none ↔
      j < -(rd.indices.length : Int) ∨ (rd.indices.length : Int) ≤ j := by
  rw [v1_getitem_eq]
  by_cases hj : j > 0
  · rw [if_pos hj]
    cases h1 : npIndex rd.indices (j - 1) with
    | none =>
      rw [npIndex_eq_none_iff] at h1
      simp only [Option.none_bind, true_iff]
      omega
    | some s =>
      have h1r : ¬(j - 1 < -(rd.indices.length : Int) ∨
          (rd.indices.length : Int) ≤ j - 1) := by
        intro hc
        rw [← npIndex_eq_none_iff rd.indices (j - 1)] at hc
        rw [h1] at hc
        exact Option.noConfusion hc
      rw [Option.some_bind, Option.map_eq_none', npIndex_eq_none_iff]
  · rw [if_neg hj, Option.some_bind, Option.map_eq_none', npIndex_eq_none_iff]

/-! ## Lemmas: a reader freshly opened on a written store -/

theorem v1_len_writeSession (rs : List (List Nat))
    (h63 : sumLens rs < 2 ^ 63) :
    (IndexDataFileReaderV1.openFiles (writeSession rs).1
        (writeSession rs).2).len = rs.length := by
  show (npFromfileInt64 (writeSession rs).1).length = _
  rw [parsedIndices rs h63]
  simp [cumulativeOffsets_length]

theorem v1_getitem_writeSession (rs : List (List Nat))
    (h63 : sumLens rs < 2 ^ 63) (i : Nat) (r : List Nat)
    (hi : rs[i]? = some r) :
    (IndexDataFileReaderV1.openFiles (writeSession rs).1
        (writeSession rs).2).getitem (i : Int) = some r := by
  have hlen : i < rs.length := by
    by_contra hc
    rw [List.getElem?_eq_none (by omega)] at hi
    exact Option.noConfusion hi
  have hidx : npFromfileInt64 (writeSession rs).1 =
      (cumulativeOffsets 0 rs).map (Nat.cast : Nat → Int) :=
    parsedIndices rs h63
  have hclen : ((cumulativeOffsets 0 rs).map (Nat.cast : Nat → Int)).length
      = rs.length := by
    simp [cumulativeOffsets_length]
  have hend : npIndex ((cumulativeOffsets 0 rs).map (Nat.cast : Nat → Int))
      (i : Int) = some ((sumLens (rs.take (i + 1)) : Nat) : Int) := by
    rw [npIndex_natCast _ i (by rw [hclen]; exact hlen)]
    rw [List.getElem?_map, cumulativeOffsets_getElem? 0 rs i hlen]
    simp
  have hstart : (if (i : Int) > 0 then
      npIndex ((cumulativeOffsets 0 rs).map (Nat.cast : Nat → Int))
        ((i : Int) - 1)
      else some 0) = some ((sumLens (rs.take i) : Nat) : Int) := by
    rcases Nat.eq_zero_or_pos i with h0 | h0
    · subst h0
      rw [if_neg (by omega)]
      simp [sumLens]
    · rw [if_pos (by exact_mod_cast h0)]
      have hcast : (i : Int) - 1 = ((i - 1 : Nat) : Int) := by omega
      rw [hcast, npIndex_natCast _ (i - 1) (by rw [hclen]; omega)]
      rw [List.getElem?_map, cumulativeOffsets_getElem? 0 rs (i - 1)
        (by omega)]
      have hsucc : i - 1 + 1 = i := by omega
      rw [hsucc]
      simp
  show IndexDataFileReaderV1.getitem _ _ = _
  rw [v1_getitem_eq]
  show ((if (i : Int) > 0 then
      npIndex (npFromfileInt64 (writeSession rs).1) ((i : Int) - 1)
      else some 0).bind fun s =>
        (npIndex (npFromfileInt64 (writeSession rs).1) ((i : Int))).map
          fun e => pySlice (writeSession rs).2 s e) = some r
  rw [hidx, writeSession_bin, hstart, hend, Option.some_bind, Option.map_some']
  refine congrArg some ?_
  rw [pySlice_natCast _ _ _
    (by rw [flatten_length_sumLens]; exact sumLens_take_le rs i)
    (by rw [flatten_length_sumLens]; exact sumLens_take_le rs (i + 1))]
  exact flatten_slice_record rs i r hi

theorem v1_getitem_writeSession_neg_one (rs : List (List Nat))
    (h63 : sumLens rs < 2 ^ 63) (hn : 0 < rs.length) :
    (IndexDataFileReaderV1.openFiles (writeSession rs).1
        (writeSession rs).2).getitem (-1) = some rs.flatten := by
  have hidx : npFromfileInt64 (writeSession rs).1 =
      (cumulativeOffsets 0 rs).map (Nat.cast : Nat → Int) :=
    parsedIndices rs h63
  have hclen : ((cumulativeOffsets 0 rs).map (Nat.cast : Nat → Int)).length
      = rs.length := by
    simp [cumulativeOffsets_length]
  have hend : npIndex ((cumulativeOffsets 0 rs).map (Nat.cast : Nat → Int))
      (-1) = some ((sumLens rs : Nat) : Int) := by
    rw [npIndex_neg _ _ (by rw [hclen]; omega) (by omega)]
    have htn : ((((cumulativeOffsets 0 rs).map (Nat.cast : Nat → Int)).length
        : Int) + -1).toNat = rs.length - 1 := by
      rw [hclen]; omega
    rw [htn, List.getElem?_map,
      cumulativeOffsets_getElem? 0 rs (rs.length - 1) (by omega)]
    have hx : rs.length - 1 + 1 = rs.length := by omega
    rw [hx, List.take_length]
    simp
  show IndexDataFileReaderV1.getitem _ _ = _
  rw [v1_getitem_eq]
  show ((if (-1 : Int) > 0 then
      npIndex (npFromfileInt64 (writeSession rs).1) ((-1 : Int) - 1)
      else some 0).bind fun s =>
        (npIndex (npFromfileInt64 (writeSession rs).1) (-1)).map
          fun e => pySlice (writeSession rs).2 s e) = some rs.flatten
  rw [if_neg (by omega), hidx, writeSession_bin, hend, Option.some_bind,
    Option.map_some']
  refine congrArg some ?_
  show pySlice rs.flatten ((0 : Nat) : Int) ((sumLens rs : Nat) : Int) = _
  rw [pySlice_natCast _ _ _ (by omega)
    (by rw [flatten_length_sumLens])]
  rw [List.drop_zero, ← flatten_length_sumLens, List.take_length]

/-! ## Lemmas: composite dataset -/

theorem getitemZip_cons (k : Int) (r : ReaderObj) (rs : List ReaderObj)
    (sh : List Int) (shs : List (List Int)) (dt : Nat) (dts : List Nat)
    (dp : Int) (dps : List Int) :
    getitemZip k (r :: rs) (sh :: shs) (dt :: dts) (dp :: dps) =
      (streamItem k r sh dt dp).bind fun a =>
        (getitemZip k rs shs dts dps).map fun rest => a :: rest := by
  show (match streamItem k r sh dt dp with
    | none => none
    | some a =>
      match getitemZip k rs shs dts dps with
      | none => none
      | some rest => some (a :: rest)) = _
  cases h1 : streamItem k r sh dt dp with
  | none => rfl
  | some a =>
    cases h2 : getitemZip k rs shs dts dps with
    | none => rfl
    | some rest => rfl

theorem getitemZip_getElem? (k : Int) (rs : List ReaderObj)
    (shs : List (List Int)) (dts : List Nat) (dps : List Int)
    (out : List (List Nat × List (List Nat)))
    (hout : getitemZip k rs shs dts dps = some out) (s : Nat)
    (r : ReaderObj) (sh : List Int) (dt : Nat) (dp : Int)
    (hr : rs[s]? = some r) (hsh : shs[s]? = some sh)
    (hdt : dts[s]? = some dt) (hdp : dps[s]? = some dp) :
    out[s]? = streamItem k r sh dt dp := by
  induction rs generalizing shs dts dps out s with
  | nil => simp at hr
  | cons r0 rest ih =>
    cases shs with
    | nil => simp at hsh
    | cons sh0 shs' =>
      cases dts with
      | nil => simp at hdt
      | cons dt0 dts' =>
        cases dps with
        | nil => simp at hdp
        | cons dp0 dps' =>
          rw [getitemZip_cons] at hout
          cases h1 : streamItem k r0 sh0 dt0 dp0 with
          | none => rw [h1, Option.none_bind] at hout; exact Option.noConfusion hout
          | some a =>
            rw [h1, Option.some_bind] at hout
            cases h2 : getitemZip k rest shs' dts' dps' with
            | none => rw [h2, Option.map_none'] at hout; exact Option.noConfusion hout
            | some rest' =>
              rw [h2, Option.map_some'] at hout
              have hout2 : out = a :: rest' := (Option.some.inj hout).symm
              subst hout2
              cases s with
              | zero =>
                simp only [List.getElem?_cons_zero] at hr hsh hdt hdp ⊢
                rw [← Option.some.inj hr, ← Option.some.inj hsh,
                  ← Option.some.inj hdt, ← Option.some.inj hdp, h1]
              | succ s' =>
                simp only [List.getElem?_cons_succ] at hr hsh hdt hdp ⊢
                exact ih shs' dts' dps' rest' h2 s' hr hsh hdt hdp

theorem getitemZip_cons_isSome (k : Int) (r : ReaderObj)
    (rs : List ReaderObj) (sh : List Int) (shs : List (List Int)) (dt : Nat)
    (dts : List Nat) (dp : Int) (dps : List Int) :
    (getitemZip k (r :: rs) (sh :: shs) (dt :: dts) (dp :: dps)).isSome ↔
      (streamItem k r sh dt dp).isSome ∧
        (getitemZip k rs shs dts dps).isSome := by
  rw [getitemZip_cons]
  cases h1 : streamItem k r sh dt dp with
  | none => simp
  | some a =>
    cases h2 : getitemZip k rs shs dts dps with
    | none => simp
    | some rest => simp

theorem resolveShape_isSome_iff (shape : List Int) (count : Nat)
    (hwf : shapeWellFormed shape) :
    (resolveShape shape count).isSome ↔ reshapeCompatible shape count := by
  obtain ⟨hge, hcnt⟩ := hwf
  have hany : ¬(shape.any (fun d => d < -1) = true) := by
    simp only [List.any_eq_true, decide_eq_true_eq, not_exists]
    intro d
    rintro ⟨hd, hlt⟩
    have := hge d hd
    omega
  have hres : resolveShape shape count =
      if shape.count (-1) = 0 then
        (if knownProd shape = count then some (shape.map Int.toNat) else none)
      else if shape.count (-1) = 1 then
        (if knownProd shape ≠ 0 ∧ count % knownProd shape = 0 then
          some (shape.map fun d =>
            if d = -1 then count / knownProd shape else d.toNat)
        else none)
      else none := by
    unfold resolveShape
    rw [if_neg hany]
  rcases Nat.le_one_iff_eq_zero_or_eq_one.mp hcnt with h0 | h1
  · have hrc : reshapeCompatible shape count ↔ knownProd shape = count := by
      unfold reshapeCompatible
      rw [if_neg (by omega)]
    rw [hres, if_pos h0, hrc]
    by_cases hk : knownProd shape = count
    · rw [if_pos hk]
      simpa using hk
    · rw [if_neg hk]
      simpa using hk
  · have h0n : ¬(shape.count (-1) = 0) := by omega
    have hrc : reshapeCompatible shape count ↔
        (knownProd shape ≠ 0 ∧ count % knownProd shape = 0) := by
      unfold reshapeCompatible
      rw [if_pos h1]
    rw [hres, if_neg h0n, if_pos h1, hrc]
    by_cases hk : knownProd shape ≠ 0 ∧ count % knownProd shape = 0
    · rw [if_pos hk]
      simpa using hk
    · rw [if_neg hk]
      simpa using hk

theorem npFrombufferReshape_isSome_iff (buf : List Nat) (itemsize : Nat)
    (shape : List Int) (hpos : 0 < itemsize) (hwf : shapeWellFormed shape) :
    (npFrombufferReshape buf itemsize shape).isSome ↔
      buf.length % itemsize = 0 ∧
        reshapeCompatible shape (buf.length / itemsize) := by
  unfold npFrombufferReshape
  rw [if_neg (by omega)]
  by_cases hmod : buf.length % itemsize = 0
  · rw [if_neg (by omega)]
    rw [← resolveShape_isSome_iff shape (buf.length / itemsize) hwf]
    cases h : resolveShape shape (buf.length / itemsize) with
    | none => simp [hmod]
    | some sh => simp [hmod]
  · rw [if_pos (by omega)]
    simp [hmod]

/-! ## Lemmas: the dataset close loop -/

theorem closeLoop_all_ok (rs : List ReaderObj)
    (h : ∀ p ∈ rs, (p.close).isSome) :
    closeLoop rs = (rs.map fun p => (p.close).getD p, true) := by
  induction rs with
  | nil => rfl
  | cons p rest ih =>
    obtain ⟨p2, hp2⟩ := Option.isSome_iff_exists.mp (h p (by simp))
    rw [closeLoop, hp2, ih fun q hq => h q (by simp [hq])]
    simp [hp2]

theorem closeLoop_abort (pre : List ReaderObj) (r : ReaderObj)
    (post : List ReaderObj) (hpre : ∀ p ∈ pre, (p.close).isSome)
    (hr : r.close = none) :
    closeLoop (pre ++ r :: post) =
      (pre.map (fun p => (p.close).getD p) ++ r :: post, false) := by
  induction pre with
  | nil => simp [closeLoop, hr]
  | cons p pre' ih =>
    obtain ⟨p2, hp2⟩ := Option.isSome_iff_exists.mp (hpre p (by simp))
    rw [List.cons_append, closeLoop, hp2,
      ih fun q hq => hpre q (by simp [hq])]
    simp [hp2]

/-! ## A convenience lemma: the parsed value at one position, minus its
predecessor, recovers the record length. -/

theorem parsed_getD_sub (records : List (List Nat))
    (h63 : sumLens records < 2 ^ 63) (i : Nat) (r : List Nat)
    (hi : records[i]? = some r) :
    (npFromfileInt64 (writeSession records).1).getD i 0 -
      (if i = 0 then 0 else
        (npFromfileInt64 (writeSession records).1).getD (i - 1) 0) =
      (r.length : Int) := by
  have hlen : i < records.length := by
    by_contra hc
    rw [List.getElem?_eq_none (by omega)] at hi
    exact Option.noConfusion hi
  rw [parsedIndices records h63]
  rw [List.getD_eq_getElem?_getD, List.getElem?_map,
    cumulativeOffsets_getElem? 0 records i hlen]
  have hsucc : sumLens (records.take (i + 1)) =
      sumLens (records.take i) + r.length :=
    sumLens_take_succ records i r hi
  rcases Nat.eq_zero_or_pos i with h0 | h0
  · subst h0
    have h00 : sumLens (records.take 0) = 0 := rfl
    simp only [if_pos rfl, Option.map_some', Option.getD_some]
    rw [hsucc, h00]
    push_cast
    omega
  · rw [if_neg (by omega)]
    rw [List.getD_eq_getElem?_getD, List.getElem?_map,
      cumulativeOffsets_getElem? 0 records (i - 1) (by omega)]
    have hi1 : i - 1 + 1 = i := by omega
    rw [hi1]
    simp only [Option.map_some', Option.getD_some]
    rw [hsucc]
    push_cast
    omega

/-- Length of a successful composite fetch: one entry per zipped stream. -/
theorem getitemZip_length (k : Int) (rs : List ReaderObj)
    (shs : List (List Int)) (dts : List Nat) (dps : List Int)
    (out : List (List Nat × List (List Nat)))
    (hout : getitemZip k rs shs dts dps = some out) :
    out.length = min (min rs.length shs.length) (min dts.length dps.length)
    := by
  induction rs generalizing shs dts dps out with
  | nil =>
    cases shs <;> cases dts <;> cases dps <;>
      simp only [getitemZip] at hout <;>
      rw [← Option.some.inj hout] <;> simp
  | cons r rs' ih =>
    cases shs with
    | nil =>
      simp only [getitemZip] at hout
      rw [← Option.some.inj hout]
      simp
    | cons sh shs' =>
      cases dts with
      | nil =>
        simp only [getitemZip] at hout
        rw [← Option.some.inj hout]
        simp
      | cons dt dts' =>
        cases dps with
        | nil =>
          simp only [getitemZip] at hout
          rw [← Option.some.inj hout]
          simp
        | cons dp dps' =>
          rw [getitemZip_cons] at hout
          cases h1 : streamItem k r sh dt dp with
          | none =>
            rw [h1, Option.none_bind] at hout
            exact Option.noConfusion hout
          | some a =>
            rw [h1, Option.some_bind] at hout
            cases h2 : getitemZip k rs' shs' dts' dps' with
            | none =>
              rw [h2, Option.map_none'] at hout
              exact Option.noConfusion hout
            | some rest =>
              rw [h2, Option.map_some'] at hout
              rw [← Option.some.inj hout]
              have := ih shs' dts' dps' rest h2
              simp only [List.length_cons, this]
              omega

/-! ## Claim theorems -/

/-- C1: for every sequence of byte-string records written through a writer
session, a reader opened on the same prefix returns `get(i) == r_i` for
every valid `i`, for both the eager (`IndexDataFileReaderV1`) and
memory-mapped (`IndexDataFileReader`) variants, and the two variants agree
byte-for-byte at every index. -/
theorem C1_round_trip (records : List (List Nat))
    (h63 : sumLens records < 2 ^ 63) (i : Nat) (r : List Nat)
    (hi : records[i]? = some r) :
    (IndexDataFileReaderV1.openFiles (writeSession records).1
        (writeSession records).2).getitem (i : Int) = some r ∧
    (IndexDataFileReader.openFiles (writeSession records).1
        (writeSession records).2).getitem (i : Int) = some r ∧
    ∀ j : Int,
      (IndexDataFileReader.openFiles (writeSession records).1
          (writeSession records).2).getitem j =
        (IndexDataFileReaderV1.openFiles (writeSession records).1
            (writeSession records).2).getitem j := by
  have hv1 := v1_getitem_writeSession records h63 i r hi
  have hmap : ∀ j : Int,
      (IndexDataFileReader.openFiles (writeSession records).1
          (writeSession records).2).getitem j =
        (IndexDataFileReaderV1.openFiles (writeSession records).1
            (writeSession records).2).getitem j :=
    fun j => mapped_getitem_eq _ j rfl
  exact ⟨hv1, (hmap (i : Int)).trans hv1, hmap⟩

/-- Witness for C1 at the concrete store `[b"a", b"bc"]`, record 1. -/
theorem C1_round_trip_witness :
    sumLens [[97], [98, 99]] < 2 ^ 63 ∧
    (IndexDataFileReaderV1.openFiles (writeSession [[97], [98, 99]]).1
        (writeSession [[97], [98, 99]]).2).getitem ((1 : Nat) : Int) =
      some [98, 99] :=
  ⟨by decide, (C1_round_trip [[97], [98, 99]] (by decide) 1 [98, 99]
    (by decide)).1⟩

/-- C2 counterexample: on the 1-record store holding `b"a"`, `get(-1)` does
not fail — it returns the whole data file (Python negative-index
wrap-around), contradicting the claim that `get(-1)` fails with
OutOfRange. -/
theorem C2_counterexample :
    (IndexDataFileReaderV1.openFiles (writeSession [[97]]).1
        (writeSession [[97]]).2).getitem (-1) = some [97] := by
  decide

/-- C2 (amended): `get(index)` fails with OutOfRange exactly when
`index >= n` or `index < -n`; indices in `[-n, -1]` follow Python negative
indexing, so `get(-1)` succeeds and returns the byte range
`[0, cumulative[n-1])`, i.e. the entire data file; `get(n)` fails; `get(0)`
and `get(n-1)` succeed (for `n >= 1`).  This holds for both reader
variants. -/
theorem C2_boundary_amended (records : List (List Nat))
    (h63 : sumLens records < 2 ^ 63) :
    (∀ j : Int,
      (IndexDataFileReaderV1.openFiles (writeSession records).1
          (writeSession records).2).getitem j = none ↔
        (j < -(records.length : Int) ∨ (records.length : Int) ≤ j)) ∧
    (∀ j : Int,
      (IndexDataFileReader.openFiles (writeSession records).1
          (writeSession records).2).getitem j = none ↔
        (j < -(records.length : Int) ∨ (records.length : Int) ≤ j)) ∧
    (0 < records.length →
      (IndexDataFileReaderV1.openFiles (writeSession records).1
          (writeSession records).2).getitem (-1) = some records.flatten) ∧
    (IndexDataFileReaderV1.openFiles (writeSession records).1
        (writeSession records).2).getitem ((records.length : Nat) : Int) =
      none ∧
    (0 < records.length →
      ((IndexDataFileReaderV1.openFiles (writeSession records).1
          (writeSession records).2).getitem 0).isSome ∧
      ((IndexDataFileReaderV1.openFiles (writeSession records).1
          (writeSession records).2).getitem
        (((records.length : Nat) : Int) - 1)).isSome) := by
  have hlen : (IndexDataFileReaderV1.openFiles (writeSession records).1
      (writeSession records).2).indices.length = records.length :=
    v1_len_writeSession records h63
  have hiff : ∀ j : Int,
      (IndexDataFileReaderV1.openFiles (writeSession records).1
          (writeSession records).2).getitem j = none ↔
        (j < -(records.length : Int) ∨ (records.length : Int) ≤ j) := by
    intro j
    rw [v1_getitem_eq_none_iff, hlen]
  have hmap : ∀ j : Int,
      (IndexDataFileReader.openFiles (writeSession records).1
          (writeSession records).2).getitem j =
        (IndexDataFileReaderV1.openFiles (writeSession records).1
            (writeSession records).2).getitem j :=
    fun j => mapped_getitem_eq _ j rfl
  refine ⟨hiff, ?_, ?_, ?_, ?_⟩
  · intro j
    rw [hmap j]
    exact hiff j
  · intro hn
    exact v1_getitem_writeSession_neg_one records h63 hn
  · exact (hiff _).mpr (Or.inr le_rfl)
  · intro hn
    constructor
    · rw [Option.isSome_iff_ne_none, ne_eq, hiff 0]
      omega
    · rw [Option.isSome_iff_ne_none, ne_eq, hiff _]
      omega

/-- Witness for C2 (amended) at the 2-record store `[b"a", b"b"]`. -/
theorem C2_boundary_amended_witness :
    sumLens [[97], [98]] < 2 ^ 63 ∧
    ((IndexDataFileReaderV1.openFiles (writeSession [[97], [98]]).1
        (writeSession [[97], [98]]).2).getitem 2 = none ↔
      ((2 : Int) < -((([[97], [98]] : List (List Nat)).length : Nat) : Int) ∨
        ((([[97], [98]] : List (List Nat)).length : Nat) : Int) ≤ 2)) :=
  ⟨by decide, (C2_boundary_amended [[97], [98]] (by decide)).1 2⟩

/-- C3: after writing records of lengths `L_0 … L_{n-1}`, the index file is
exactly `n` 8-byte integers, the parsed value at position `i` is the prefix
sum `L_0 + … + L_i`, the values are monotonically non-decreasing, and the
inferred length `cumulative[i] - cumulative[i-1]` (with `cumulative[-1] = 0`)
equals `L_i`. -/
theorem C3_index_prefix_sums (records : List (List Nat))
    (h63 : sumLens records < 2 ^ 63) :
    (writeSession records).1.length = 8 * records.length ∧
    npFromfileInt64 (writeSession records).1 =
      (cumulativeOffsets 0 records).map (Nat.cast : Nat → Int) ∧
    (∀ i, i < records.length →
      (npFromfileInt64 (writeSession records).1)[i]? =
        some ((sumLens (records.take (i + 1)) : Nat) : Int)) ∧
    List.Chain' (· ≤ ·) (npFromfileInt64 (writeSession records).1) ∧
    (∀ i r, records[i]? = some r →
      (npFromfileInt64 (writeSession records).1).getD i 0 -
        (if i = 0 then 0 else
          (npFromfileInt64 (writeSession records).1).getD (i - 1) 0) =
        (r.length : Int)) := by
  refine ⟨writeSession_idx_length records, parsedIndices records h63, ?_,
    ?_, ?_⟩
  · intro i hi
    rw [parsedIndices records h63, List.getElem?_map,
      cumulativeOffsets_getElem? 0 records i hi]
    simp
  · rw [parsedIndices records h63]
    rw [List.chain'_map]
    refine (cumulativeOffsets_chain 0 records).imp ?_
    intro a b hab
    exact_mod_cast hab
  · intro i r hi
    exact parsed_getD_sub records h63 i r hi

/-- Witness for C3 at the store `[b"ab", b"c"]`. -/
theorem C3_index_prefix_sums_witness :
    sumLens [[97, 98], [99]] < 2 ^ 63 ∧
    npFromfileInt64 (writeSession [[97, 98], [99]]).1 =
      (cumulativeOffsets 0 [[97, 98], [99]]).map (Nat.cast : Nat → Int) :=
  ⟨by decide, (C3_index_prefix_sums [[97, 98], [99]] (by decide)).2.1⟩

/-- C4: writing `b"ab"`, `b""`, `b"xyz"` produces an index file that is the
three 8-byte integers `[2, 2, 5]` and a data file equal to `b"abxyz"`, and
a reader over the store returns the three records. -/
theorem C4_concrete_scenario :
    writeSession [[97, 98], [], [120, 121, 122]] =
      (int64LE 2 ++ int64LE 2 ++ int64LE 5, [97, 98, 120, 121, 122]) ∧
    npFromfileInt64 (writeSession [[97, 98], [], [120, 121, 122]]).1 =
      [2, 2, 5] ∧
    (writeSession [[97, 98], [], [120, 121, 122]]).1.length = 24 ∧
    (IndexDataFileReaderV1.openFiles
        (writeSession [[97, 98], [], [120, 121, 122]]).1
        (writeSession [[97, 98], [], [120, 121, 122]]).2).getitem 0 =
      some [97, 98] ∧
    (IndexDataFileReaderV1.openFiles
        (writeSession [[97, 98], [], [120, 121, 122]]).1
        (writeSession [[97, 98], [], [120, 121, 122]]).2).getitem 1 =
      some [] ∧
    (IndexDataFileReaderV1.openFiles
        (writeSession [[97, 98], [], [120, 121, 122]]).1
        (writeSession [[97, 98], [], [120, 121, 122]]).2).getitem 2 =
      some [120, 121, 122] := by
  decide

/-- C9: a zero-length record at position `i` is representable: `get(i)`
returns the empty byte range on both reader variants, and the stored
cumulative offset at `i` equals the one at `i - 1` (with the `cumulative[-1]
= 0` convention for `i = 0`). -/
theorem C9_empty_record (records : List (List Nat))
    (h63 : sumLens records < 2 ^ 63) (i : Nat)
    (hi : records[i]? = some []) :
    (IndexDataFileReaderV1.openFiles (writeSession records).1
        (writeSession records).2).getitem (i : Int) = some [] ∧
    (IndexDataFileReader.openFiles (writeSession records).1
        (writeSession records).2).getitem (i : Int) = some [] ∧
    (npFromfileInt64 (writeSession records).1).getD i 0 =
      (if i = 0 then 0 else
        (npFromfileInt64 (writeSession records).1).getD (i - 1) 0) := by
  have hv1 := v1_getitem_writeSession records h63 i [] hi
  refine ⟨hv1, (mapped_getitem_eq _ (i : Int) rfl).trans hv1, ?_⟩
  have hsub := parsed_getD_sub records h63 i [] hi
  simp only [List.length_nil, Nat.cast_zero] at hsub
  omega

/-- Witness for C9 at the store `[b""]`, record 0. -/
theorem C9_empty_record_witness :
    sumLens [([] : List Nat)] < 2 ^ 63 ∧
    (IndexDataFileReaderV1.openFiles (writeSession [[]]).1
        (writeSession [[]]).2).getitem ((0 : Nat) : Int) = some [] :=
  ⟨by decide, (C9_empty_record [[]] (by decide) 0 (by decide)).1⟩

/-- C5: `len()` of a composite dataset equals the length of stream 0's
reader, and a successful `get(k)` sources stream `s` from record
`k // dup[s]` of reader `s`, reinterpreted (`np.frombuffer(...).reshape`)
with the declared element size and shape. -/
theorem C5_composite_duplication (rs : List ReaderObj)
    (shs : List (List Int)) (dts : List Nat) (dps : List Int)
    (r0 : ReaderObj) (h0 : rs[0]? = some r0) (s : Nat) (r : ReaderObj)
    (sh : List Int) (dt : Nat) (dp : Int) (hr : rs[s]? = some r)
    (hsh : shs[s]? = some sh) (hdt : dts[s]? = some dt)
    (hdp : dps[s]? = some dp) (k : Int)
    (out : List (List Nat × List (List Nat)))
    (hout : IndexDataDataset.getitem ⟨rs, shs, dts, dps⟩ k = some out) :
    IndexDataDataset.length ⟨rs, shs, dts, dps⟩ = some r0.len ∧
    dp ≠ 0 ∧
    ∃ buf arr, r.getitem (Int.fdiv k dp) = some buf ∧
      npFrombufferReshape buf dt sh = some arr ∧ out[s]? = some arr := by
  have hzip : getitemZip k rs shs dts dps = some out := hout
  have heq := getitemZip_getElem? k rs shs dts dps out hzip s r sh dt dp
    hr hsh hdt hdp
  have hlt : s < out.length := by
    rw [getitemZip_length k rs shs dts dps out hzip]
    have h1 : s < rs.length := by
      by_contra hc
      rw [List.getElem?_eq_none (by omega)] at hr
      exact Option.noConfusion hr
    have h2 : s < shs.length := by
      by_contra hc
      rw [List.getElem?_eq_none (by omega)] at hsh
      exact Option.noConfusion hsh
    have h3 : s < dts.length := by
      by_contra hc
      rw [List.getElem?_eq_none (by omega)] at hdt
      exact Option.noConfusion hdt
    have h4 : s < dps.length := by
      by_contra hc
      rw [List.getElem?_eq_none (by omega)] at hdp
      exact Option.noConfusion hdp
    omega
  constructor
  · cases rs with
    | nil => simp at h0
    | cons rr rest =>
      have hrr : rr = r0 := by simpa using h0
      subst hrr
      rfl
  cases hsi : streamItem k r sh dt dp with
  | none =>
    rw [hsi, List.getElem?_eq_getElem hlt] at heq
    exact absurd heq (by simp)
  | some arr =>
    rw [hsi] at heq
    unfold streamItem at hsi
    by_cases hdp0 : dp = 0
    · rw [if_pos hdp0] at hsi
      exact Option.noConfusion hsi
    · rw [if_neg hdp0] at hsi
      cases hbuf : r.getitem (Int.fdiv k dp) with
      | none =>
        rw [hbuf, Option.none_bind] at hsi
        exact Option.noConfusion hsi
      | some buf =>
        rw [hbuf, Option.some_bind] at hsi
        exact ⟨hdp0, buf, arr, rfl, hsi, heq⟩

/-- Witness for C5: stream A with 10 one-byte records and `dup 1`, stream B
with 5 one-byte records and `dup 2`; at `k = 7` stream B sources its record
`7 // 2 = 3` and `len()` is 10. -/
theorem C5_composite_duplication_witness :
    IndexDataDataset.length
        ⟨[ReaderObj.v1 ⟨[1, 2, 3, 4, 5, 6, 7, 8, 9, 10],
            [0, 1, 2, 3, 4, 5, 6, 7, 8, 9]⟩,
          ReaderObj.v1 ⟨[1, 2, 3, 4, 5], [10, 11, 12, 13, 14]⟩],
          [[1], [1]], [1, 1], [1, 2]⟩ =
      some (ReaderObj.len (ReaderObj.v1 ⟨[1, 2, 3, 4, 5, 6, 7, 8, 9, 10],
        [0, 1, 2, 3, 4, 5, 6, 7, 8, 9]⟩)) ∧
    (2 : Int) ≠ 0 ∧
    ∃ buf arr,
      (ReaderObj.v1 ⟨[1, 2, 3, 4, 5], [10, 11, 12, 13, 14]⟩).getitem
          (Int.fdiv 7 2) = some buf ∧
      npFrombufferReshape buf 1 [1] = some arr ∧
      ([([1], [[7]]), ([1], [[13]])] :
        List (List Nat × List (List Nat)))[1]? = some arr :=
  C5_composite_duplication
    [ReaderObj.v1 ⟨[1, 2, 3, 4, 5, 6, 7, 8, 9, 10],
        [0, 1, 2, 3, 4, 5, 6, 7, 8, 9]⟩,
      ReaderObj.v1 ⟨[1, 2, 3, 4, 5], [10, 11, 12, 13, 14]⟩]
    [[1], [1]] [1, 1] [1, 2]
    (ReaderObj.v1 ⟨[1, 2, 3, 4, 5, 6, 7, 8, 9, 10],
      [0, 1, 2, 3, 4, 5, 6, 7, 8, 9]⟩) (by decide)
    1 (ReaderObj.v1 ⟨[1, 2, 3, 4, 5], [10, 11, 12, 13, 14]⟩) [1] 1 2
    (by decide) (by decide) (by decide) (by decide) 7
    [([1], [[7]]), ([1], [[13]])] (by decide)

/-- C6 counterexample: the eager-load reader class defines no `close`
method, so `close()` on it fails (AttributeError) instead of succeeding as
a no-op. -/
theorem C6_counterexample :
    ReaderObj.close (ReaderObj.v1 ⟨[], []⟩) = none := by
  decide

/-- C6 (amended): `close()` on the eager-load variant fails with an
attribute lookup error (the class defines no `close` method), while
`close()` on the memory-mapped variant succeeds and releases both the
mapping and the file handle. -/
theorem C6_close_amended :
    (∀ r : IndexDataFileReaderV1, ReaderObj.close (ReaderObj.v1 r) = none) ∧
    (∀ m : IndexDataFileReader, ReaderObj.close (ReaderObj.mapped m) =
      some (ReaderObj.mapped ⟨m.indices, m.data, true, true⟩)) :=
  ⟨fun _ => rfl, fun _ => rfl⟩

/-- C7 counterexample: closing a dataset whose first reader is the eager
variant raises immediately; the second (memory-mapped, still open) reader
is left untouched, so no close is attempted on it. -/
theorem C7_counterexample :
    IndexDataDataset.close ⟨[ReaderObj.v1 ⟨[], []⟩,
        ReaderObj.mapped ⟨[], [], false, false⟩], [], [], []⟩ =
      ([ReaderObj.v1 ⟨[], []⟩, ReaderObj.mapped ⟨[], [], false, false⟩],
        false) := by
  decide

/-- C7 (amended): `IndexDataDataset.close` closes the underlying readers
strictly in order and aborts at the first reader whose `close()` raises:
the error propagates immediately and the readers after the failing one are
left in their prior state, not close-attempted.  When every close succeeds
the loop closes all readers. -/
theorem C7_close_amended (pre : List ReaderObj) (r : ReaderObj)
    (post : List ReaderObj) (hpre : ∀ p ∈ pre, (p.close).isSome)
    (hr : r.close = none) :
    IndexDataDataset.close ⟨pre ++ r :: post, [], [], []⟩ =
      (pre.map (fun p => (p.close).getD p) ++ r :: post, false) ∧
    ∀ rs : List ReaderObj, (∀ p ∈ rs, (p.close).isSome) →
      IndexDataDataset.close ⟨rs, [], [], []⟩ =
        (rs.map fun p => (p.close).getD p, true) :=
  ⟨closeLoop_abort pre r post hpre hr,
    fun rs h => closeLoop_all_ok rs h⟩

/-- Witness for C7 (amended): mapped, eager, mapped — the first mapped
reader is closed, the eager reader raises, the last reader stays open. -/
theorem C7_close_amended_witness :
    IndexDataDataset.close ⟨[ReaderObj.mapped ⟨[], [], false, false⟩,
        ReaderObj.v1 ⟨[], []⟩, ReaderObj.mapped ⟨[], [], false, false⟩],
        [], [], []⟩ =
      ([ReaderObj.mapped ⟨[], [], true, true⟩, ReaderObj.v1 ⟨[], []⟩,
        ReaderObj.mapped ⟨[], [], false, false⟩], false) :=
  (C7_close_amended [ReaderObj.mapped ⟨[], [], false, false⟩]
    (ReaderObj.v1 ⟨[], []⟩) [ReaderObj.mapped ⟨[], [], false, false⟩]
    (by decide) (by decide)).1

/-- C8: given that every stream's fetch succeeds, the composite
`__getitem__` succeeds exactly when, for every stream `s`, the fetched byte
range length is an exact multiple of the element size of `dtypes[s]` and is
consistent with `shapes[s]` (the reshape size constraint). -/
theorem C8_decode_error (k : Int) (n : Nat) (rs : List ReaderObj)
    (shs : List (List Int)) (dts : List Nat) (dps : List Int)
    (hrl : rs.length = n) (hshl : shs.length = n) (hdtl : dts.length = n)
    (hdpl : dps.length = n) (bufs : List (List Nat)) (hbl : bufs.length = n)
    (hfetch : ∀ s, s < n → (rs.getD s default).getitem
      (Int.fdiv k (dps.getD s 1)) = some (bufs.getD s []))
    (hdt : ∀ s, s < n → 0 < dts.getD s 0)
    (hdp : ∀ s, s < n → dps.getD s 1 ≠ 0)
    (hsh : ∀ s, s < n → shapeWellFormed (shs.getD s [])) :
    (getitemZip k rs shs dts dps).isSome ↔
      ∀ s, s < n → (bufs.getD s []).length % dts.getD s 0 = 0 ∧
        reshapeCompatible (shs.getD s [])
          ((bufs.getD s []).length / dts.getD s 0) := by
  induction rs generalizing n shs dts dps bufs with
  | nil =>
    obtain rfl : n = 0 := by simpa using hrl.symm
    obtain rfl : shs = [] := List.length_eq_zero.mp hshl
    obtain rfl : dts = [] := List.length_eq_zero.mp hdtl
    obtain rfl : dps = [] := List.length_eq_zero.mp hdpl
    constructor
    · intro _ s hs
      exact absurd hs (by omega)
    · intro _
      rfl
  | cons r rs' ih =>
    cases shs with
    | nil => exfalso; simp at hrl hshl; omega
    | cons sh shs' =>
      cases dts with
      | nil => exfalso; simp at hrl hdtl; omega
      | cons dt dts' =>
        cases dps with
        | nil => exfalso; simp at hrl hdpl; omega
        | cons dp dps' =>
          cases bufs with
          | nil => exfalso; simp at hrl hbl; omega
          | cons buf bufs' =>
            obtain rfl : n = rs'.length + 1 := by simpa using hrl.symm
            rw [getitemZip_cons_isSome]
            have h0dp : dp ≠ 0 := by simpa using hdp 0 (by omega)
            have h0fetch : r.getitem (Int.fdiv k dp) = some buf := by
              simpa using hfetch 0 (by omega)
            have h0dt : 0 < dt := by simpa using hdt 0 (by omega)
            have h0sh : shapeWellFormed sh := by simpa using hsh 0 (by omega)
            have hstream : (streamItem k r sh dt dp).isSome ↔
                (buf.length % dt = 0 ∧
                  reshapeCompatible sh (buf.length / dt)) := by
              unfold streamItem
              rw [if_neg h0dp, h0fetch, Option.some_bind]
              exact npFrombufferReshape_isSome_iff buf dt sh h0dt h0sh
            have hih := ih rs'.length shs' dts' dps' rfl
              (by simpa using hshl) (by simpa using hdtl)
              (by simpa using hdpl) bufs' (by simpa using hbl)
              (fun s hs => by simpa using hfetch (s + 1) (by omega))
              (fun s hs => by simpa using hdt (s + 1) (by omega))
              (fun s hs => by simpa using hdp (s + 1) (by omega))
              (fun s hs => by simpa using hsh (s + 1) (by omega))
            rw [hstream, hih]
            constructor
            · rintro ⟨hA, hB⟩ s hs
              cases s with
              | zero => simpa using hA
              | succ s' => simpa using hB s' (by omega)
            · intro h
              refine ⟨by simpa using h 0 (by omega), fun s hs => ?_⟩
              simpa using h (s + 1) (by omega)

/-- Witness for C8: one stream holding a 4-byte record, element size 2,
shape `[2]` — the fetch is compatible and the composite get succeeds. -/
theorem C8_decode_error_witness :
    (getitemZip 0 [ReaderObj.v1 ⟨[4], [1, 2, 3, 4]⟩] [[2]] [2] [1]).isSome ↔
      ∀ s, s < 1 → (([[1, 2, 3, 4]] : List (List Nat)).getD s []).length %
          ([2].getD s 0) = 0 ∧
        reshapeCompatible ([[2]].getD s ([] : List Int))
          ((([[1, 2, 3, 4]] : List (List Nat)).getD s []).length /
            ([2].getD s 0)) :=
  C8_decode_error 0 1 [ReaderObj.v1 ⟨[4], [1, 2, 3, 4]⟩] [[2]] [2] [1]
    (by decide) (by decide) (by decide) (by decide) [[1, 2, 3, 4]]
    (by decide) (by decide) (by decide) (by decide) (by decide)

/-- C10: with any falsy `dups` argument — `None` or the empty list — every
stream's duplication factor defaults to 1; string entries of the
readers-or-paths list are opened as memory-mapped readers over
`<entry>.idx` / `<entry>.bin`, and non-string entries are used as given. -/
theorem C10_init (fs : String → List Nat)
    (entries : List (Sum String ReaderObj)) (shapes : List (List Int))
    (dtypes : List Nat) (dups : Option (List Int))
    (hfalsy : dups = none ∨ dups = some []) :
    (IndexDataDataset.init fs entries shapes dtypes dups).dups =
      List.replicate entries.length 1 ∧
    (∀ (j : Nat) (f : String), entries[j]? = some (Sum.inl f) →
      (IndexDataDataset.init fs entries shapes dtypes dups).readers[j]? =
        some (ReaderObj.mapped (IndexDataFileReader.openFiles
          (fs (f ++ ".idx")) (fs (f ++ ".bin"))))) ∧
    (∀ (j : Nat) (r : ReaderObj), entries[j]? = some (Sum.inr r) →
      (IndexDataDataset.init fs entries shapes dtypes dups).readers[j]? =
        some r) := by
  refine ⟨?_, ?_, ?_⟩
  · rcases hfalsy with h | h <;> subst h <;> rfl
  · intro j f hj
    show (entries.map (getreader fs))[j]? = _
    rw [List.getElem?_map, hj]
    rfl
  · intro j r hj
    show (entries.map (getreader fs))[j]? = _
    rw [List.getElem?_map, hj]
    rfl

/-- Witness for C10: an explicit empty-list `dups` (falsy but not `None`)
still yields duplication factors `[1, 1]`, and the non-string entry is
kept as given. -/
theorem C10_init_witness :
    (IndexDataDataset.init (fun _ => []) [Sum.inl "d",
        Sum.inr (ReaderObj.v1 ⟨[], []⟩)] [] [] (some [])).dups =
      List.replicate 2 1 ∧
    (IndexDataDataset.init (fun _ => []) [Sum.inl "d",
        Sum.inr (ReaderObj.v1 ⟨[], []⟩)] [] [] (some [])).readers[1]? =
      some (ReaderObj.v1 ⟨[], []⟩) :=
  ⟨(C10_init (fun _ => []) [Sum.inl "d", Sum.inr (ReaderObj.v1 ⟨[], []⟩)]
      [] [] (some []) (Or.inr rfl)).1,
    (C10_init (fun _ => []) [Sum.inl "d", Sum.inr (ReaderObj.v1 ⟨[], []⟩)]
      [] [] (some []) (Or.inr rfl)).2.2 1 (ReaderObj.v1 ⟨[], []⟩) rfl⟩

end Voice100
